import Mathlib

/-!
# webuser: the user-record repository and its JSON request decoder

A shallow embedding of `static/webuser/webuser.go`.

* The relational store behind `*sql.DB` is an explicit state (`DB`) that every
  operation receives and, when it writes, returns.  The SQL statements of the
  package are kept as syntax trees (`SQL`) whose column lists and placeholder
  counts are those of the string literals in the source; a small engine gives
  them their meaning on the `user` table.
* Failures of the store (lost connection, failed preparation, ...) come from an
  environment `Env` that may make any single driver call fail.
* A Go run-time panic (nil pointer dereference) is an explicit `Outcome.panic`.
* `encoding/json` is a parameter (`JSONCodec`): its scanner turns text into a
  JSON value, the decoding of a value into a `User` follows the struct tags of
  the source.  `stdCodec` is an executable instance of it.

Modelling choices for what lies outside the package:

* the store compares text byte for byte and does not enforce the declared width
  `varchar(64)`; a Go `string` is never `NULL`, so `NOT NULL` always holds;
* a statement is checked against the schema when it is prepared and again when
  it is executed, and `database/sql` refuses a call whose argument count differs
  from the number of placeholders;
* the `*sql.DB` handle given to `Open` is not nil, and the `*User` given to
  `DecodeJSONUser` is not nil;
* `api.ContentType_JSON` is declared in another package and is a parameter.
-/

set_option autoImplicit false

namespace webuser

/-! ## Errors, users -/

/-- Go `error` values that the package can hand to a caller.  `ErrNotFound` is
the package variable; `store` is any error coming from `database/sql` or the
driver; `decode` is any error coming from `encoding/json`. -/
inductive Error where
  | ErrNotFound
  | store (msg : String)
  | decode (msg : String)
  deriving DecidableEq, Repr

/-- The struct `User`; `UserID` is an `int64`. -/
structure User where
  UserID : Int
  Alias : String
  Email : String
  Password : String
  deriving DecidableEq, Repr

/-- The zero value `User{}`. -/
def User.zero : User := { UserID := 0, Alias := "", Email := "", Password := "" }

/-- How a Go call ends: it returns, or the goroutine panics. -/
inductive Outcome (α : Type) where
  | ret (a : α)
  | panic (msg : String)
  deriving DecidableEq, Repr

/-- The message of the run-time error raised by a method call through a nil pointer. -/
def nilDereference : String := "runtime error: invalid memory address or nil pointer dereference"

/-! ## The relational store -/

/-- The columns of table `user` (`alias_` is column `alias`, a reserved word here). -/
inductive Col where
  | user_id
  | alias_
  | email
  | password
  deriving DecidableEq, Repr

/-- SQL values bound to placeholders and read from result sets. -/
inductive Value where
  | int (i : Int)
  | text (s : String)
  deriving DecidableEq, Repr

/-- One row of table `user`; every column is `NOT NULL`. -/
structure Row where
  user_id : Int
  alias_ : String
  email : String
  password : String
  deriving DecidableEq, Repr

/-- The value a row holds in a column. -/
def Row.get (r : Row) : Col → Value
  | .user_id => .int r.user_id
  | .alias_ => .text r.alias_
  | .email => .text r.email
  | .password => .text r.password

/-- Whether a value has the declared type of a column (`integer` or `varchar`). -/
def Col.accepts : Col → Value → Bool
  | .user_id, .int _ => true
  | .alias_, .text _ => true
  | .email, .text _ => true
  | .password, .text _ => true
  | _, _ => false

/-- Assign one column of a row. -/
def Row.set (r : Row) : Col → Value → Row
  | .user_id, .int i => { r with user_id := i }
  | .alias_, .text s => { r with alias_ := s }
  | .email, .text s => { r with email := s }
  | .password, .text s => { r with password := s }
  | _, _ => r

/-- Assign several columns, left to right. -/
def Row.assign (r : Row) (sets : List (Col × Value)) : Row :=
  sets.foldl (fun acc cv => acc.set cv.1 cv.2) r

/-- The statements of the package, as syntax.
* `createTable`: `CREATE TABLE IF NOT EXISTS user (user_id integer NOT NULL, alias
  varchar(64) NOT NULL, email varchar(64) NOT NULL, password varchar(64) NOT NULL,
  constraint pk_user primary key(user_id))`
* `select cols w n`: `SELECT cols FROM user WHERE w = ? LIMIT n`
* `insert cols k`: `INSERT INTO user (cols) VALUES (?, ..., ?)` with `k` placeholders
* `update sets w`: `UPDATE user SET c1=?, ..., cm=? WHERE w=?` -/
inductive SQL where
  | createTable
  | select (cols : List Col) (whereCol : Col) (limit : Nat)
  | insert (cols : List Col) (placeholders : Nat)
  | update (setCols : List Col) (whereCol : Col)
  deriving DecidableEq, Repr

/-- Number of `?` placeholders of a statement. -/
def SQL.NumInput : SQL → Nat
  | .createTable => 0
  | .select _ _ _ => 1
  | .insert _ k => k
  | .update sets _ => sets.length + 1

/-- The store: the rows of table `user` in storage order, or `none` while the
table does not exist. -/
structure DB where
  user : Option (List Row)
  deriving DecidableEq, Repr

/-- The primary-key constraint `pk_user`: no two rows share a `user_id`. -/
def DB.Valid (db : DB) : Prop :=
  match db.user with
  | none => True
  | some rows => (rows.map Row.user_id).Nodup

instance DB.decidableValid (db : DB) : Decidable db.Valid :=
  match h : db.user with
  | none => isTrue (by simp [DB.Valid, h])
  | some rows => decidable_of_iff ((rows.map Row.user_id).Nodup) (by simp [DB.Valid, h])

/-- The driver calls that can fail for reasons outside the table contents. -/
inductive Call where
  | dbExec (q : SQL)
  | prepare (q : SQL)
  | stmtExec (q : SQL)
  | query (q : SQL)
  | next
  | scan
  deriving DecidableEq, Repr

/-- The environment: for each driver call, the store error it fails with, if any. -/
abbrev Env := Call → Option String

/-- An environment in which no driver call fails. -/
def healthy : Env := fun _ => none

/-- All columns of the table, in declaration order. -/
def allCols : List Col := [.user_id, .alias_, .email, .password]

/-- Compile-time check of a statement against the schema. -/
def SQL.check (db : DB) : SQL → Option Error
  | .createTable => none
  | .select _ _ _ =>
    match db.user with
    | none => some (.store "no such table: user")
    | some _ => none
  | .insert cols k =>
    match db.user with
    | none => some (.store "no such table: user")
    | some _ =>
      if cols.length = k then none
      else some (.store "number of values does not match number of columns")
  | .update _ _ =>
    match db.user with
    | none => some (.store "no such table: user")
    | some _ => none

/-- Rows selected by `SELECT cols FROM user WHERE w = key LIMIT n`. -/
def selectRows (rows : List Row) (cols : List Col) (w : Col) (n : Nat) (key : Value) :
    List (List Value) :=
  ((rows.filter (fun r => r.get w = key)).take n).map (fun r => cols.map r.get)

/-- Execute a checked statement with bound arguments: the new store and the error, if any. -/
def DB.run (db : DB) (q : SQL) (args : List Value) : DB × Option Error :=
  match SQL.check db q with
  | some e => (db, some e)
  | none =>
    if args.length ≠ q.NumInput then
      (db, some (.store "sql: wrong number of arguments for the statement"))
    else
      match q, db.user with
      | .createTable, none => ({ user := some [] }, none)
      | .createTable, some _ => (db, none)
      | .select _ _ _, _ => (db, none)
      | .insert cols _, some rows =>
        let sets := cols.zip args
        if ¬ sets.all (fun cv => cv.1.accepts cv.2) then
          (db, some (.store "datatype mismatch"))
        else if ¬ (cols.Nodup ∧ ∀ c ∈ allCols, c ∈ cols) then
          (db, some (.store "NOT NULL constraint failed"))
        else
          let row := Row.assign { user_id := 0, alias_ := "", email := "", password := "" } sets
          if rows.all (fun r => r.user_id ≠ row.user_id) then
            ({ user := some (rows ++ [row]) }, none)
          else
            (db, some (.store "UNIQUE constraint failed: user.user_id"))
      | .update setCols w, some rows =>
        let sets := setCols.zip args
        let key := args.getLast?
        if ¬ sets.all (fun cv => cv.1.accepts cv.2) then
          (db, some (.store "datatype mismatch"))
        else
          let rows1 := rows.map (fun r => if some (r.get w) = key then r.assign sets else r)
          if Col.user_id ∈ setCols ∧ ¬ (rows1.map Row.user_id).Nodup then
            (db, some (.store "UNIQUE constraint failed: user.user_id"))
          else
            ({ user := some rows1 }, none)
      | _, none => (db, some (.store "no such table: user"))

/-! ## `database/sql` handles -/

/-- A prepared statement `*sql.Stmt`. -/
structure Stmt where
  sql : SQL
  deriving DecidableEq, Repr

/-- A result set `*sql.Rows`: the row under the cursor and the rows still to come. -/
structure Rows where
  current : Option (List Value)
  pending : List (List Value)
  deriving DecidableEq, Repr

/-- Call `(*sql.DB).Exec(query)`: the store after the call and the error. -/
def DB.Exec (env : Env) (db : DB) (q : SQL) (args : List Value) : DB × Option Error :=
  match env (.dbExec q) with
  | some msg => (db, some (.store msg))
  | none => db.run q args

/-- Call `(*sql.DB).Prepare(query)`: the statement handle (nil on failure) and the error. -/
def DB.Prepare (env : Env) (db : DB) (q : SQL) : Option Stmt × Option Error :=
  match env (.prepare q) with
  | some msg => (none, some (.store msg))
  | none =>
    match SQL.check db q with
    | some e => (none, some e)
    | none => (some { sql := q }, none)

/-- Call `(*sql.Stmt).Exec(args...)`: the store after the call and the error. -/
def Stmt.Exec (env : Env) (db : DB) (s : Stmt) (args : List Value) : DB × Option Error :=
  match env (.stmtExec s.sql) with
  | some msg => (db, some (.store msg))
  | none => db.run s.sql args

/-- Call `(*sql.Stmt).Query(args...)`: the result set (nil on failure) and the error. -/
def Stmt.Query (env : Env) (db : DB) (s : Stmt) (args : List Value) :
    Option Rows × Option Error :=
  match env (.query s.sql) with
  | some msg => (none, some (.store msg))
  | none =>
    match SQL.check db s.sql with
    | some e => (none, some e)
    | none =>
      if args.length ≠ s.sql.NumInput then
        (none, some (.store "sql: wrong number of arguments for the statement"))
      else
        match s.sql, db.user, args with
        | .select cols w n, some rows, [key] =>
          (some { current := none, pending := selectRows rows cols w n key }, none)
        | _, _, _ => (some { current := none, pending := [] }, none)

/-- Call `(*sql.Rows).Next()`: whether a row is now under the cursor, and the advanced
result set.  A failure while fetching ends the iteration: `Next` reports `false`
and the error stays inside the result set. -/
def Rows.Next (env : Env) (rs : Rows) : Bool × Rows :=
  match env .next with
  | some _ => (false, { current := none, pending := [] })
  | none =>
    match rs.pending with
    | [] => (false, { current := none, pending := [] })
    | r :: rest => (true, { current := some r, pending := rest })

/-- The fields of `User` a `Scan` destination can point to. -/
inductive Field where
  | UserID
  | Alias
  | Email
  | Password
  deriving DecidableEq, Repr

/-- The integer a decimal text denotes, with an optional sign, as `strconv.ParseInt`
reads it in base 10. -/
def parseInt (s : String) : Option Int :=
  let digits (ds : List Char) : Option Nat :=
    if ds ≠ [] ∧ ds.all Char.isDigit then
      some (ds.foldl (fun acc d => acc * 10 + (d.toNat - 48)) 0)
    else none
  match s.toList with
  | '+' :: ds => (digits ds).map Int.ofNat
  | '-' :: ds => (digits ds).map (fun n => -Int.ofNat n)
  | ds => (digits ds).map Int.ofNat

/-- The conversion `Scan` applies when storing a column into one destination:
integers go to `*int64` as they are and to `*string` in decimal; text goes to
`*string` as it is and to `*int64` when it is the decimal form of an `int64`. -/
def convertAssign (c : User) : Field → Value → Except Error User
  | .UserID, .int i => .ok { c with UserID := i }
  | .UserID, .text s =>
    match parseInt s with
    | some i =>
      if -(2 : Int) ^ 63 ≤ i ∧ i < (2 : Int) ^ 63 then .ok { c with UserID := i }
      else .error (.store "sql: Scan error: value out of range")
    | none => .error (.store "sql: Scan error: invalid syntax")
  | .Alias, .text s => .ok { c with Alias := s }
  | .Alias, .int i => .ok { c with Alias := toString i }
  | .Email, .text s => .ok { c with Email := s }
  | .Email, .int i => .ok { c with Email := toString i }
  | .Password, .text s => .ok { c with Password := s }
  | .Password, .int i => .ok { c with Password := toString i }

/-- Store the columns into the destinations from left to right; the first
failing conversion stops the scan and leaves the earlier destinations assigned. -/
def scanInto : List Field → List Value → User → User × Option Error
  | f :: fs, v :: vs, c =>
    match convertAssign c f v with
    | .ok c1 => scanInto fs vs c1
    | .error e => (c, some e)
  | _, _, c => (c, none)

/-- Call `(*sql.Rows).Scan(dest...)` with destinations that are fields of `c`. -/
def Rows.Scan (env : Env) (rs : Rows) (dest : List Field) (c : User) : User × Option Error :=
  match env .scan with
  | some msg => (c, some (.store msg))
  | none =>
    match rs.current with
    | none => (c, some (.store "sql: Scan called without calling Next"))
    | some cols =>
      if dest.length ≠ cols.length then
        (c, some (.store "sql: wrong number of destination arguments in Scan"))
      else scanInto dest cols c

/-! ## The repository -/

/-- The struct `dbUser`: the statement handles are pointers, `none` is nil.  The
`db` handle designates the store, whose state is passed explicitly. -/
structure dbUser where
  db : Unit
  getUser : Option Stmt
  getByEmail : Option Stmt
  addUser : Option Stmt
  listUser : Option Stmt
  deriving DecidableEq, Repr

/-- Statement `SELECT user_id,alias,email,password FROM user WHERE user_id = ? LIMIT 1`. -/
def getSQL : SQL := .select [.user_id, .alias_, .email, .password] .user_id 1

/-- Statement `SELECT user_id,alias,email,password FROM user WHERE email = ? LIMIT 1`. -/
def getByEmailSQL : SQL := .select [.user_id, .alias_, .email, .password] .email 1

/-- Statement `INSERT INTO user (user_id,alias,email,password) VALUES (?, ?, ?, ?, ?)`:
four columns, five placeholders. -/
def addSQL : SQL := .insert [.user_id, .alias_, .email, .password] 5

/-- Statement `UPDATE user SET alias=? , email=?, password=? WHERE user_id=?`. -/
def updateSQL : SQL := .update [.alias_, .email, .password] .user_id

/-- Method `func (user dbUser) Get(id int64) (User, error)`.  The error of `Query` is
assigned and not looked at; `records.Next()` is called on whatever `Query`
returned. -/
def dbUser.Get (env : Env) (user : dbUser) (db : DB) (id : Int) :
    Outcome (User × Option Error) :=
  match user.getUser with
  | none => .panic nilDereference
  | some stmt =>
    let (records, _err) := stmt.Query env db [.int id]
    match records with
    | none => .panic nilDereference
    | some rs =>
      let (more, rs1) := rs.Next env
      if more then
        let c := User.zero
        let (c1, err) := rs1.Scan env [.UserID, .Alias, .Email, .Password] c
        .ret (c1, err)
      else
        .ret (User.zero, some .ErrNotFound)

/-- Method `func (user dbUser) GetByEmail(email string) (User, error)`, written like `Get`. -/
def dbUser.GetByEmail (env : Env) (user : dbUser) (db : DB) (email : String) :
    Outcome (User × Option Error) :=
  match user.getByEmail with
  | none => .panic nilDereference
  | some stmt =>
    let (records, _err) := stmt.Query env db [.text email]
    match records with
    | none => .panic nilDereference
    | some rs =>
      let (more, rs1) := rs.Next env
      if more then
        let c := User.zero
        let (c1, err) := rs1.Scan env [.UserID, .Alias, .Email, .Password] c
        .ret (c1, err)
      else
        .ret (User.zero, some .ErrNotFound)

/-- Method `func (user dbUser) Add(newUser User) error`: the store after the call and
the returned error.  The statement is prepared on `user.db` at each call. -/
def dbUser.Add (env : Env) (_user : dbUser) (db : DB) (newUser : User) :
    Outcome (DB × Option Error) :=
  let (add, err) := db.Prepare env addSQL
  if err ≠ none then .ret (db, err)
  else
    match add with
    | none => .panic nilDereference
    | some stmt =>
      .ret (stmt.Exec env db
        [.int newUser.UserID, .text newUser.Alias, .text newUser.Email, .text newUser.Password])

/-- Method `func (user dbUser) Update(changedUser User) error`: the store after the call
and the returned error.  The statement is prepared on `user.db` at each call. -/
def dbUser.Update (env : Env) (_user : dbUser) (db : DB) (changedUser : User) :
    Outcome (DB × Option Error) :=
  let (add, err) := db.Prepare env updateSQL
  if err ≠ none then .ret (db, err)
  else
    match add with
    | none => .panic nilDereference
    | some stmt =>
      .ret (stmt.Exec env db
        [.text changedUser.Alias, .text changedUser.Email, .text changedUser.Password,
          .int changedUser.UserID])

/-- Function `func Open(db *sql.DB) (i WebUser, err error)`: the store after the call, the
returned repository (`none` is the nil interface) and the returned error. -/
def Open (env : Env) (db : DB) : DB × Option dbUser × Option Error :=
  let (db1, err) := db.Exec env .createTable []
  if err ≠ none then (db1, none, err)
  else
    let (get, err) := db1.Prepare env getSQL
    if err ≠ none then (db1, none, err)
    else
      let (getByEmail, err) := db1.Prepare env getByEmailSQL
      if err ≠ none then (db1, none, err)
      else
        (db1, some { db := (), getUser := get, getByEmail := getByEmail,
                     addUser := none, listUser := none }, none)

/-! ## `encoding/json` as used by the request decoder -/

/-- A JSON number literal: an integer literal (no fraction, no exponent) with its
value, or a literal that has a fraction or an exponent. -/
inductive Number where
  | int (i : Int)
  | real (lit : String)
  deriving DecidableEq, Repr

/-- JSON values; the members of an object are kept in textual order. -/
inductive Json where
  | null
  | bool (b : Bool)
  | num (n : Number)
  | str (s : String)
  | arr (items : List Json)
  | obj (members : List (String × Json))

/-! ### A reader for JSON text

`scanner.readValue` reads the first JSON value of a text the way a fresh
`json.Decoder` does: leading white space is skipped, the value ends where its
syntax ends, and what follows it in the text is not looked at. -/

namespace scanner

/-- JSON white space. -/
def isSpace (c : Char) : Bool := c = ' ' || c = '\t' || c = '\r' || c = '\n'

/-- Drop leading white space. -/
def skipSpace : List Char → List Char
  | [] => []
  | c :: cs => if isSpace c then skipSpace cs else c :: cs

/-- The value of a hexadecimal digit. -/
def hexVal (c : Char) : Option Nat :=
  if '0' ≤ c ∧ c ≤ '9' then some (c.toNat - 48)
  else if 'a' ≤ c ∧ c ≤ 'f' then some (c.toNat - 87)
  else if 'A' ≤ c ∧ c ≤ 'F' then some (c.toNat - 55)
  else none

/-- Four hexadecimal digits, as a UTF-16 code unit. -/
def readHex4 : List Char → Option (Nat × List Char)
  | a :: b :: c :: d :: rest =>
    match hexVal a, hexVal b, hexVal c, hexVal d with
    | some x, some y, some z, some w => some (((x * 16 + y) * 16 + z) * 16 + w, rest)
    | _, _, _, _ => none
  | _ => none

/-- The character an escape sequence stands for, given the text after the backslash. -/
def readEscape : List Char → Option (Char × List Char)
  | [] => none
  | c :: rest =>
    if c = '"' then some ('"', rest)
    else if c = '\\' then some ('\\', rest)
    else if c = '/' then some ('/', rest)
    else if c = 'b' then some (Char.ofNat 8, rest)
    else if c = 'f' then some (Char.ofNat 12, rest)
    else if c = 'n' then some ('\n', rest)
    else if c = 'r' then some ('\r', rest)
    else if c = 't' then some ('\t', rest)
    else if c = 'u' then
      match readHex4 rest with
      | none => none
      | some (hi, rest1) =>
        if 0xD800 ≤ hi ∧ hi < 0xDC00 then
          match rest1 with
          | '\\' :: 'u' :: rest2 =>
            match readHex4 rest2 with
            | some (lo, rest3) =>
              if 0xDC00 ≤ lo ∧ lo < 0xE000 then
                some (Char.ofNat (0x10000 + (hi - 0xD800) * 0x400 + (lo - 0xDC00)), rest3)
              else some (Char.ofNat 0xFFFD, rest1)
            | none => some (Char.ofNat 0xFFFD, rest1)
          | _ => some (Char.ofNat 0xFFFD, rest1)
        else if 0xDC00 ≤ hi ∧ hi < 0xE000 then some (Char.ofNat 0xFFFD, rest1)
        else some (Char.ofNat hi, rest1)
    else none

/-- The contents of a string literal, given the text after its opening quote. -/
def readString : Nat → List Char → List Char → Option (String × List Char)
  | 0, _, _ => none
  | _ + 1, [], _ => none
  | n + 1, c :: rest, acc =>
    if c = '"' then some (String.mk acc.reverse, rest)
    else if c = '\\' then
      match readEscape rest with
      | some (ch, rest1) => readString n rest1 (ch :: acc)
      | none => none
    else if c.toNat < 32 then none
    else readString n rest (c :: acc)

/-- The number a run of decimal digits denotes. -/
def digitsVal (ds : List Char) : Nat := ds.foldl (fun acc d => acc * 10 + (d.toNat - 48)) 0

/-- A number literal at the head of the text. -/
def readNumber (cs : List Char) : Option (Number × List Char) :=
  let neg := cs.head? = some '-'
  let cs1 := if neg then cs.drop 1 else cs
  let ip := cs1.span Char.isDigit
  let intDigits := if ip.1.head? = some '0' then ['0'] else ip.1
  let cs2 := cs1.drop intDigits.length
  if intDigits = [] then none
  else
    let value : Int := if neg then -(digitsVal intDigits : Int) else (digitsVal intDigits : Int)
    let fp : Option (List Char × List Char) :=
      match cs2 with
      | '.' :: t => let f := t.span Char.isDigit; if f.1 = [] then none else some ('.' :: f.1, f.2)
      | _ => some ([], cs2)
    match fp with
    | none => none
    | some (frac, cs3) =>
      let ep : Option (List Char × List Char) :=
        match cs3 with
        | e :: t =>
          if e = 'e' ∨ e = 'E' then
            let sign := if t.head? = some '+' ∨ t.head? = some '-' then t.take 1 else []
            let x := (t.drop sign.length).span Char.isDigit
            if x.1 = [] then none else some (e :: sign ++ x.1, x.2)
          else some ([], cs3)
        | [] => some ([], cs3)
      match ep with
      | none => none
      | some (exp, cs4) =>
        if frac = [] ∧ exp = [] then some (.int value, cs4)
        else some (.real (String.mk ((if neg then ['-'] else []) ++ intDigits ++ frac ++ exp)), cs4)

/-- What the reader is in the middle of. -/
inductive Mode where
  | value
  | elems (acc : List Json)
  | members (acc : List (String × Json))

/-- Read one JSON value (mode `value`), the rest of an array after `[` or `,`
(mode `elems`), or the rest of an object after `{` or `,` (mode `members`).  The
first argument bounds the depth of the calls; a call on a text of `k` characters
nests at most `2 * k + 1` calls, which is what `readValue` provides. -/
def read : Nat → Mode → List Char → Option (Json × List Char)
  | 0, _, _ => none
  | n + 1, .value, cs =>
    match skipSpace cs with
    | [] => none
    | c :: rest =>
      if c = '{' then
        match skipSpace rest with
        | '}' :: rest1 => some (.obj [], rest1)
        | _ => read n (.members []) rest
      else if c = '[' then
        match skipSpace rest with
        | ']' :: rest1 => some (.arr [], rest1)
        | _ => read n (.elems []) rest
      else if c = '"' then
        match readString (rest.length + 1) rest [] with
        | some (s, rest1) => some (.str s, rest1)
        | none => none
      else if "true".toList.isPrefixOf (c :: rest) then some (.bool true, rest.drop 3)
      else if "false".toList.isPrefixOf (c :: rest) then some (.bool false, rest.drop 4)
      else if "null".toList.isPrefixOf (c :: rest) then some (.null, rest.drop 3)
      else
        match readNumber (c :: rest) with
        | some (x, rest1) => some (.num x, rest1)
        | none => none
  | n + 1, .elems acc, cs =>
    match read n .value cs with
    | none => none
    | some (v, rest) =>
      match skipSpace rest with
      | ',' :: rest1 => read n (.elems (v :: acc)) rest1
      | ']' :: rest1 => some (.arr (v :: acc).reverse, rest1)
      | _ => none
  | n + 1, .members acc, cs =>
    match skipSpace cs with
    | '"' :: rest =>
      match readString (rest.length + 1) rest [] with
      | none => none
      | some (key, rest1) =>
        match skipSpace rest1 with
        | ':' :: rest2 =>
          match read n .value rest2 with
          | none => none
          | some (v, rest3) =>
            match skipSpace rest3 with
            | ',' :: rest4 => read n (.members ((key, v) :: acc)) rest4
            | '}' :: rest4 => some (.obj ((key, v) :: acc).reverse, rest4)
            | _ => none
        | _ => none
    | _ => none

/-- The first JSON value of a text. -/
def readValue (src : String) : Except String Json :=
  match skipSpace src.toList with
  | [] => .error "EOF"
  | cs =>
    match read (2 * cs.length + 2) .value cs with
    | some (j, _) => .ok j
    | none => .error "invalid character or unexpected end of JSON input"

end scanner

/-- The parts of `encoding/json` the package relies on and that the source does
not determine: `readValue` is what a fresh `json.Decoder` reads from its input,
the first JSON value of the text or a syntax error (`io.EOF` on empty input);
`foldName` is the case folding under which an object key that equals no field
name exactly is matched against the field names. -/
structure JSONCodec where
  readValue : String → Except String Json
  foldName : String → String

/-- A codec built from the reader above; it folds the ASCII letters of a name. -/
def stdCodec : JSONCodec :=
  { readValue := scanner.readValue, foldName := fun s => String.mk (s.toList.map Char.toUpper) }

/-- The `json:"..."` struct tags of `User`, in field order. -/
def userTags : List (Field × String) :=
  [(.UserID, "userID"), (.Alias, "alias"), (.Email, "email"), (.Password, "-")]

/-- The fields `encoding/json` decodes into, with their JSON names: a field
tagged `-` is left out. -/
def typeFields (tags : List (Field × String)) : List (String × Field) :=
  (tags.filter (fun ft => ft.2 ≠ "-")).map (fun ft => (ft.2, ft.1))

/-- The field an object key designates: the field whose name is the key, else the
first field whose name equals the key up to case folding. -/
def findField (codec : JSONCodec) (fields : List (String × Field)) (key : String) :
    Option Field :=
  match fields.find? (fun nf => nf.1 = key) with
  | some nf => some nf.2
  | none =>
    (fields.find? (fun nf => codec.foldName nf.1 = codec.foldName key)).map (fun nf => nf.2)

/-- Store one JSON value into one field of `c`.  `null` leaves the field as it
is; `UserID` takes an integer literal within the `int64` range; the string
fields take a JSON string; anything else is an `UnmarshalTypeError`. -/
def storeField (c : User) : Field → Json → Except Error User
  | _, .null => .ok c
  | .UserID, .num (.int i) =>
    if -(2 : Int) ^ 63 ≤ i ∧ i < (2 : Int) ^ 63 then .ok { c with UserID := i }
    else .error (.decode "json: cannot unmarshal number into Go struct field User.userID of type int64")
  | .UserID, _ =>
    .error (.decode "json: cannot unmarshal value into Go struct field User.userID of type int64")
  | .Alias, .str s => .ok { c with Alias := s }
  | .Alias, _ =>
    .error (.decode "json: cannot unmarshal value into Go struct field User.alias of type string")
  | .Email, .str s => .ok { c with Email := s }
  | .Email, _ =>
    .error (.decode "json: cannot unmarshal value into Go struct field User.email of type string")
  | .Password, .str s => .ok { c with Password := s }
  | .Password, _ =>
    .error (.decode "json: cannot unmarshal value into Go struct field User.Password of type string")

/-- Decode the members of an object in order.  A key that designates no field is
skipped; a value of the wrong type is skipped and the first such error is kept
while decoding goes on. -/
def decodeObject (codec : JSONCodec) (fields : List (String × Field)) :
    List (String × Json) → User × Option Error → User × Option Error
  | [], acc => acc
  | (key, v) :: rest, (c, saved) =>
    match findField codec fields key with
    | none => decodeObject codec fields rest (c, saved)
    | some f =>
      match storeField c f v with
      | .ok c1 => decodeObject codec fields rest (c1, saved)
      | .error e => decodeObject codec fields rest (c, saved.orElse (fun _ => some e))

/-- Unmarshal a JSON value into the `User` behind the pointer: an object is
decoded member by member, `null` changes nothing, any other value is an
`UnmarshalTypeError`. -/
def unmarshal (codec : JSONCodec) (j : Json) (c : User) : User × Option Error :=
  match j with
  | .obj members => decodeObject codec (typeFields userTags) members (c, none)
  | .null => (c, none)
  | _ => (c, some (.decode "json: cannot unmarshal value into Go value of type webuser.User"))

/-- A `*json.Decoder` that has not read anything yet: the text of its input. -/
structure Decoder where
  input : String

/-- Function `json.NewDecoder(r)`, for a reader `r` that delivers the text `r`. -/
def NewDecoder (r : String) : Decoder := { input := r }

/-- Call `dec.Decode(&user)` on a fresh decoder: the `User` the pointer designates
after the call, and the returned error.  A text with no well-formed first value
is an error and nothing is stored. -/
def Decoder.Decode (codec : JSONCodec) (dec : Decoder) (c : User) : User × Option Error :=
  match codec.readValue dec.input with
  | .error msg => (c, some (.decode msg))
  | .ok j => unmarshal codec j c

/-- The part of `*http.Request` the decoder reads: the header map (an absent key
gives the empty slice), `r.PostFormValue`, and the bytes of `r.Body`. -/
structure Request where
  Header : String → List String
  PostFormValue : String → String
  Body : String

/-- Function `func DecodeJSONUser(r *http.Request, user *User) error`: the `User` behind
the pointer after the call and the returned error.  `ContentType_JSON` is the
constant `api.ContentType_JSON`. -/
def DecodeJSONUser (codec : JSONCodec) (ContentType_JSON : String) (r : Request)
    (user : User) : User × Option Error :=
  let ctype := r.Header "Content-Type"
  let dec : Decoder :=
    if ctype.length > 0 ∧ ctype[0]? = some ContentType_JSON then
      let buf := r.PostFormValue "data"
      NewDecoder buf
    else
      NewDecoder r.Body
  let err := dec.Decode codec user
  err

/-- The user a row scans to. -/
def Row.toUser (r : Row) : User :=
  { UserID := r.user_id, Alias := r.alias_, Email := r.email, Password := r.password }

/-! ## Auxiliary definitions used in the statements -/

/-- The repository value a successful `Open` builds. -/
def openedRepo : dbUser :=
  { db := (), getUser := some { sql := getSQL }, getByEmail := some { sql := getByEmailSQL },
    addUser := none, listUser := none }

/-- What a lookup returns while the store answers: the first row the `WHERE`
clause selects, or `ErrNotFound`. -/
def lookup (rows : List Row) (w : Col) (key : Value) : Outcome (User × Option Error) :=
  match rows.find? (fun r => r.get w = key) with
  | some r => .ret (r.toUser, none)
  | none => .ret (User.zero, some .ErrNotFound)

/-- The row an `UPDATE` of the package leaves in place of a row it matches. -/
def Row.updated (r : Row) (u : User) : Row :=
  { r with alias_ := u.Alias, email := u.Email, password := u.Password }

/-- The table an `UPDATE` of the package leaves. -/
def updatedRows (rows : List Row) (u : User) : List Row :=
  rows.map (fun r => if r.user_id = u.UserID then r.updated u else r)

/-- Whether a whole text is a JSON text: one JSON value, with nothing but white
space around it. -/
def scanner.valid (src : String) : Bool :=
  match scanner.read (2 * src.length + 2) .value src.toList with
  | some (_, rest) => scanner.skipSpace rest = []
  | none => false

/-- An environment in which exactly the driver call `bad` fails. -/
def failing (bad : Call) (msg : String) : Env := fun c => if c = bad then some msg else none


/-! ## Facts about the driver model -/

theorem run_createTable (db : DB) :
    db.run .createTable [] = ({ user := some (db.user.getD []) }, none) := by
  rcases db with ⟨_ | rows⟩ <;> simp [DB.run, SQL.check, SQL.NumInput]

theorem check_getSQL (rows : List Row) : SQL.check { user := some rows } getSQL = none := rfl

theorem check_getByEmailSQL (rows : List Row) :
    SQL.check { user := some rows } getByEmailSQL = none := rfl

theorem check_updateSQL (rows : List Row) :
    SQL.check { user := some rows } updateSQL = none := rfl

theorem check_addSQL (db : DB) : ∃ e, SQL.check db addSQL = some e := by
  rcases db with ⟨_ | rows⟩ <;> simp [SQL.check, addSQL]

theorem Open_eq (env : Env) (db : DB) :
    Open env db =
      match env (.dbExec .createTable) with
      | some msg => (db, none, some (.store msg))
      | none =>
        match env (.prepare getSQL) with
        | some msg => ({ user := some (db.user.getD []) }, none, some (.store msg))
        | none =>
          match env (.prepare getByEmailSQL) with
          | some msg => ({ user := some (db.user.getD []) }, none, some (.store msg))
          | none => ({ user := some (db.user.getD []) }, some openedRepo, none) := by
  unfold Open
  cases h1 : env (.dbExec .createTable) with
  | some msg => simp [DB.Exec, h1]
  | none =>
    simp only [DB.Exec, h1, run_createTable]
    cases h2 : env (.prepare getSQL) with
    | some msg => simp [DB.Prepare, h2]
    | none =>
      cases h3 : env (.prepare getByEmailSQL) with
      | some msg => simp [DB.Prepare, h2, h3, check_getSQL]
      | none => simp [DB.Prepare, h2, h3, openedRepo, check_getSQL, check_getByEmailSQL]

theorem take_one_filter_eq_find {α : Type} (p : α → Bool) (l : List α) :
    (l.filter p).take 1 = (l.find? p).toList := by
  induction l with
  | nil => rfl
  | cons a t ih =>
    by_cases h : p a
    · simp [List.filter_cons, List.find?_cons, h]
    · simp [List.filter_cons, List.find?_cons, h, ih]

theorem scan_row (env : Env) (hs : env .scan = none) (r : Row) (pending : List (List Value)) :
    Rows.Scan env { current := some (allCols.map r.get), pending := pending }
      [.UserID, .Alias, .Email, .Password] User.zero = (r.toUser, none) := by
  simp [Rows.Scan, hs, allCols, Row.get, scanInto, convertAssign, Row.toUser, User.zero]

theorem Query_select (env : Env) (w : Col) (hq : env (.query (.select allCols w 1)) = none)
    (rows : List Row) (key : Value) :
    Stmt.Query env { user := some rows } { sql := .select allCols w 1 } [key] =
      (some { current := none,
              pending := (rows.find? (fun r => r.get w = key)).toList.map
                (fun r => allCols.map r.get) }, none) := by
  simp [Stmt.Query, hq, SQL.check, SQL.NumInput, selectRows, take_one_filter_eq_find]

theorem Get_eq (env : Env) (hq : env (.query getSQL) = none) (hn : env .next = none)
    (hs : env .scan = none) (rows : List Row) (id : Int) :
    openedRepo.Get env { user := some rows } id = lookup rows .user_id (.int id) := by
  have hQ := Query_select env .user_id hq rows (.int id)
  simp only [dbUser.Get, openedRepo, lookup]
  rw [show getSQL = .select allCols .user_id 1 from rfl, hQ]
  cases hf : rows.find? (fun r => decide (r.get .user_id = .int id)) with
  | none => simp [Rows.Next, hn]
  | some r => simp [Rows.Next, hn, scan_row env hs]

theorem GetByEmail_eq (env : Env) (hq : env (.query getByEmailSQL) = none)
    (hn : env .next = none) (hs : env .scan = none) (rows : List Row) (email : String) :
    openedRepo.GetByEmail env { user := some rows } email
      = lookup rows .email (.text email) := by
  have hQ := Query_select env .email hq rows (.text email)
  simp only [dbUser.GetByEmail, openedRepo, lookup]
  rw [show getByEmailSQL = .select allCols .email 1 from rfl, hQ]
  cases hf : rows.find? (fun r => decide (r.get .email = .text email)) with
  | none => simp [Rows.Next, hn]
  | some r => simp [Rows.Next, hn, scan_row env hs]

theorem Update_eq (env : Env) (hp : env (.prepare updateSQL) = none)
    (he : env (.stmtExec updateSQL) = none) (repo : dbUser) (rows : List Row) (u : User) :
    repo.Update env { user := some rows } u =
      .ret ({ user := some (rows.map (fun r => if r.user_id = u.UserID then r.updated u else r)) },
        none) := by
  simp [dbUser.Update, DB.Prepare, hp, check_updateSQL, Stmt.Exec, he, DB.run]
  simp [updateSQL, SQL.NumInput, SQL.check, Col.accepts, Row.get, Row.assign, Row.set,
    Row.updated]

theorem Add_fails (env : Env) (repo : dbUser) (db : DB) (u : User) :
    ∃ e, repo.Add env db u = .ret (db, some e) := by
  obtain ⟨e, he⟩ := check_addSQL db
  cases hp : env (.prepare addSQL) with
  | some msg => exact ⟨.store msg, by simp [dbUser.Add, DB.Prepare, hp]⟩
  | none => exact ⟨e, by simp [dbUser.Add, DB.Prepare, hp, he]⟩

/-! ## Facts about the decoder model -/

theorem typeFields_userTags :
    typeFields userTags = [("userID", .UserID), ("alias", .Alias), ("email", .Email)] := by
  decide

theorem findField_mem (codec : JSONCodec) (fields : List (String × Field)) (key : String)
    (f : Field) (h : findField codec fields key = some f) : ∃ name, (name, f) ∈ fields := by
  unfold findField at h
  split at h
  · next nf hnf =>
    simp only [Option.some.injEq] at h
    exact ⟨nf.1, h ▸ List.mem_of_find?_eq_some hnf⟩
  · cases hfind : fields.find? (fun nf => codec.foldName nf.1 = codec.foldName key) with
    | none => simp [hfind] at h
    | some nf =>
      simp only [hfind, Option.map_some', Option.some.injEq] at h
      exact ⟨nf.1, h ▸ List.mem_of_find?_eq_some hfind⟩

theorem findField_ne_Password (codec : JSONCodec) (key : String) (f : Field)
    (h : findField codec (typeFields userTags) key = some f) : f ≠ .Password := by
  obtain ⟨name, hmem⟩ := findField_mem codec _ key f h
  rw [typeFields_userTags] at hmem
  intro hf
  subst hf
  simp at hmem

theorem storeField_Password (c c1 : User) (f : Field) (v : Json) (hf : f ≠ .Password)
    (h : storeField c f v = .ok c1) : c1.Password = c.Password := by
  unfold storeField at h
  split at h
  all_goals first
    | (split at h <;> simp at h; subst h; rfl)
    | exact absurd rfl hf
    | (simp at h; subst h; rfl)
    | simp at h

theorem decodeObject_Password (codec : JSONCodec) (members : List (String × Json))
    (c : User) (saved : Option Error) :
    (decodeObject codec (typeFields userTags) members (c, saved)).1.Password = c.Password := by
  induction members generalizing c saved with
  | nil => rfl
  | cons m rest ih =>
    obtain ⟨key, v⟩ := m
    unfold decodeObject
    cases hfind : findField codec (typeFields userTags) key with
    | none => simpa using ih c saved
    | some f =>
      cases hstore : storeField c f v with
      | error e => simpa [hstore] using ih c _
      | ok c1 =>
        have := storeField_Password c c1 f v (findField_ne_Password codec key f hfind) hstore
        simpa [hstore, this] using ih c1 saved

theorem Decode_Password (codec : JSONCodec) (dec : Decoder) (c : User) :
    (dec.Decode codec c).1.Password = c.Password := by
  unfold Decoder.Decode
  cases codec.readValue dec.input with
  | error msg => rfl
  | ok j =>
    cases j <;> simp [unmarshal, decodeObject_Password]

theorem findField_userID (codec : JSONCodec) :
    findField codec (typeFields userTags) "userID" = some .UserID := by
  simp [findField, typeFields_userTags]

theorem findField_alias (codec : JSONCodec) :
    findField codec (typeFields userTags) "alias" = some .Alias := by
  simp [findField, typeFields_userTags]

theorem findField_email (codec : JSONCodec) :
    findField codec (typeFields userTags) "email" = some .Email := by
  simp [findField, typeFields_userTags]

theorem unmarshal_shape (codec : JSONCodec) (members : List (String × Json)) (n : Int)
    (a e : String) (c : User)
    (hperm : members.Perm [("userID", .num (.int n)), ("alias", .str a), ("email", .str e)])
    (hlo : -(2 : Int) ^ 63 ≤ n) (hhi : n < (2 : Int) ^ 63) :
    unmarshal codec (.obj members) c
      = ({ UserID := n, Alias := a, Email := e, Password := c.Password }, none) := by
  have hlen := hperm.length_eq
  have hkeys := hperm.map Prod.fst
  norm_num at hlo hhi
  match members, hlen with
  | [x, y, z], _ =>
    have hx := hperm.mem_iff.mp (List.mem_cons_self x _)
    have hy := hperm.mem_iff.mp (List.mem_cons_of_mem x (List.mem_cons_self y _))
    have hz := hperm.mem_iff.mp
      (List.mem_cons_of_mem x (List.mem_cons_of_mem y (List.mem_cons_self z _)))
    simp only [List.mem_cons, List.mem_singleton, List.not_mem_nil, or_false] at hx hy hz
    rcases hx with rfl | rfl | rfl <;> rcases hy with rfl | rfl | rfl <;>
      rcases hz with rfl | rfl | rfl <;>
      first
        | (exfalso; revert hkeys; simp only [List.map]; decide)
        | simp [unmarshal, decodeObject, findField_userID, findField_alias, findField_email,
            storeField, hlo, hhi]

theorem Open_repo (env : Env) (db db1 : DB) (repo : dbUser)
    (h : Open env db = (db1, some repo, none)) : repo = openedRepo := by
  rw [Open_eq] at h
  repeat' split at h
  all_goals simp_all

theorem lookup_none (rows : List Row) (w : Col) (key : Value)
    (h : ∀ r ∈ rows, r.get w ≠ key) :
    lookup rows w key = .ret (User.zero, some .ErrNotFound) := by
  have : rows.find? (fun r => decide (r.get w = key)) = none := by
    simpa [List.find?_eq_none] using h
  simp [lookup, this]

theorem lookup_some (rows : List Row) (w : Col) (key : Value)
    (h : ∃ r ∈ rows, r.get w = key) :
    ∃ r ∈ rows, r.get w = key ∧ lookup rows w key = .ret (r.toUser, none) := by
  cases hf : rows.find? (fun r => decide (r.get w = key)) with
  | none =>
    obtain ⟨r, hr, hk⟩ := h
    have := List.find?_eq_none.mp hf r hr
    simp [hk] at this
  | some r =>
    refine ⟨r, List.mem_of_find?_eq_some hf, ?_, by simp [lookup, hf]⟩
    simpa using List.find?_some hf

theorem set_user_id (r : Row) (c : Col) (v : Value) (h : c ≠ .user_id) :
    (r.set c v).user_id = r.user_id := by
  cases c <;> cases v <;> first
    | exact absurd rfl h
    | rfl

theorem assign_user_id (r : Row) (sets : List (Col × Value))
    (h : ∀ cv ∈ sets, cv.1 ≠ .user_id) : (r.assign sets).user_id = r.user_id := by
  induction sets generalizing r with
  | nil => rfl
  | cons cv t ih =>
    simp only [List.mem_cons, forall_eq_or_imp] at h
    simp only [Row.assign, List.foldl_cons] at ih ⊢
    rw [ih _ h.2, set_user_id r cv.1 cv.2 h.1]

/-- Every statement leaves the primary key intact. -/
theorem run_preserves_Valid (db : DB) (q : SQL) (args : List Value) (h : db.Valid) :
    (db.run q args).1.Valid := by
  rcases db with ⟨_ | rows⟩
  · cases q <;> simp only [DB.run, SQL.check] <;> repeat' split
    all_goals simp_all [DB.Valid]
  · have hv : (rows.map Row.user_id).Nodup := h
    cases q with
    | createTable =>
      simp only [DB.run, SQL.check]
      split <;> exact h
    | select cols w n =>
      simp only [DB.run, SQL.check]
      split <;> exact h
    | insert cols k =>
      simp only [DB.run, SQL.check]
      repeat' split
      all_goals first
        | exact h
        | skip
      next hall =>
        simp only [DB.Valid, List.map_append, List.map_cons, List.map_nil]
        refine List.Nodup.append hv (List.nodup_singleton _) ?_
        intro i hi hi2
        simp only [List.mem_singleton] at hi2
        obtain ⟨r, hr, hri⟩ := List.mem_map.mp hi
        have := List.all_eq_true.mp hall r hr
        simp only [ne_eq, decide_not, Bool.not_eq_true', decide_eq_false_iff_not] at this
        exact this (hri.trans hi2)
    | update setCols w =>
      simp only [DB.run, SQL.check]
      repeat' split
      all_goals first
        | exact h
        | skip
      next hno =>
        simp only [DB.Valid]
        by_cases hmem : Col.user_id ∈ setCols
        · by_contra hnd
          exact hno ⟨hmem, hnd⟩
        · have hsets : ∀ cv ∈ setCols.zip args, cv.1 ≠ Col.user_id := by
            intro cv hcv heq
            exact hmem (heq ▸ (List.of_mem_zip hcv).1)
          have : (rows.map (fun r => if some (r.get w) = args.getLast? then
              r.assign (setCols.zip args) else r)).map Row.user_id
                = rows.map Row.user_id := by
            rw [List.map_map]
            apply List.map_congr_left
            intro r _
            simp only [Function.comp]
            split
            · exact assign_user_id r _ hsets
            · rfl
          rw [this]
          exact hv

theorem Exec_preserves_Valid (env : Env) (db : DB) (stmt : Stmt) (args : List Value)
    (h : db.Valid) : (stmt.Exec env db args).1.Valid := by
  unfold Stmt.Exec
  split
  · exact h
  · exact run_preserves_Valid db _ _ h

theorem Update_preserves_Valid (env : Env) (repo : dbUser) (db db1 : DB) (u : User)
    (err : Option Error) (h : db.Valid) (hres : repo.Update env db u = .ret (db1, err)) :
    db1.Valid := by
  simp only [dbUser.Update] at hres
  split at hres
  · simp only [Outcome.ret.injEq, Prod.mk.injEq] at hres
    exact hres.1 ▸ h
  · split at hres
    · exact absurd hres (by simp)
    · next stmt _ =>
      simp only [Outcome.ret.injEq] at hres
      have := Exec_preserves_Valid env db stmt
        [.text u.Alias, .text u.Email, .text u.Password, .int u.UserID] h
      rw [hres] at this
      exact this

theorem Open_preserves_Valid (env : Env) (db : DB) (h : db.Valid) : (Open env db).1.Valid := by
  rw [Open_eq]
  repeat' split
  all_goals first
    | exact h
    | (rcases db with ⟨_ | rows⟩ <;> simp_all [DB.Valid])

/-- The store does accept an `INSERT` that lists as many placeholders as columns:
with four placeholders the row is appended and the lookup by id finds it. -/
theorem insert_with_four_placeholders :
    Stmt.Exec healthy { user := some [⟨1, "al", "al@example.org", "pw"⟩] }
        { sql := .insert [.user_id, .alias_, .email, .password] 4 }
        [.int 2, .text "bo", .text "bo@example.org", .text "pw2"]
      = ({ user := some [⟨1, "al", "al@example.org", "pw"⟩, ⟨2, "bo", "bo@example.org", "pw2"⟩] },
          none) ∧
    openedRepo.Get healthy
        { user := some [⟨1, "al", "al@example.org", "pw"⟩, ⟨2, "bo", "bo@example.org", "pw2"⟩] } 2
      = .ret (⟨2, "bo", "bo@example.org", "pw2"⟩, none) := by
  refine ⟨by decide, by decide⟩

/-- The statement of `Add` is refused when it is executed, too: it has five
placeholders and `Add` binds four arguments. -/
theorem Exec_addSQL_fails (env : Env) (db : DB) (u : User) :
    ∃ e, Stmt.Exec env db { sql := addSQL }
      [.int u.UserID, .text u.Alias, .text u.Email, .text u.Password] = (db, some e) := by
  obtain ⟨e, he⟩ := check_addSQL db
  cases hx : env (.stmtExec addSQL) with
  | some msg => exact ⟨.store msg, by simp [Stmt.Exec, hx]⟩
  | none => exact ⟨e, by simp [Stmt.Exec, hx, DB.run, he]⟩

/-- Keys named after the password are skipped by the decoder. -/
theorem password_keys_are_skipped :
    DecodeJSONUser stdCodec "application/json"
        { Header := fun _ => [], PostFormValue := fun _ => "",
          Body := "\x7b\"password\": \"a\", \"Password\": \"b\", \"-\": \"c\", \"alias\": \"al\"\x7d" }
        { UserID := 3, Alias := "", Email := "", Password := "secret" }
      = ({ UserID := 3, Alias := "al", Email := "", Password := "secret" }, none) := by
  decide

/-! ## The claims -/

/-- C1, evaluated on the code: on the store a successful `Open` leaves behind,
`Add` of a user whose id is not in the table is rejected by the store (the
`INSERT` lists four columns and five placeholders), the table stays empty and a
following `Get` of that id answers `ErrNotFound`. -/
theorem Add_then_Get_at_fresh_store :
    Open healthy { user := none } = ({ user := some [] }, some openedRepo, none) ∧
    openedRepo.Add healthy { user := some [] }
        { UserID := 1, Alias := "al", Email := "al@example.org", Password := "pw" }
      = .ret ({ user := some [] },
          some (.store "number of values does not match number of columns")) ∧
    openedRepo.Get healthy { user := some [] } 1 = .ret (User.zero, some .ErrNotFound) := by
  refine ⟨by decide, by decide, by decide⟩

/-- C2: with a repository returned by a successful `Open`, on every store state
that satisfies the primary key and while the store answers, `Get(id)` returns the
zero `User` and `ErrNotFound` when no row has `user_id = id`, and returns the row
whose `user_id` is `id` with a nil error when there is one. -/
theorem Get_unknown_and_present (env0 : Env) (db0 db1 : DB) (repo : dbUser)
    (hopen : Open env0 db0 = (db1, some repo, none)) (rows : List Row)
    (hpk : DB.Valid { user := some rows }) (id : Int) :
    ((∀ r ∈ rows, r.user_id ≠ id) →
      repo.Get healthy { user := some rows } id = .ret (User.zero, some .ErrNotFound)) ∧
    (∀ r ∈ rows, r.user_id = id →
      repo.Get healthy { user := some rows } id = .ret (r.toUser, none)) := by
  rw [Open_repo env0 db0 db1 repo hopen, Get_eq healthy rfl rfl rfl]
  constructor
  · intro h
    exact lookup_none rows .user_id (.int id) (by simpa [Row.get] using h)
  · intro r hr hid
    obtain ⟨r1, hr1, hk, hres⟩ := lookup_some rows .user_id (.int id) ⟨r, hr, by simp [Row.get, hid]⟩
    have hid1 : r1.user_id = id := by simpa [Row.get] using hk
    have hpk1 : (rows.map Row.user_id).Nodup := hpk
    have : r1 = r := List.inj_on_of_nodup_map hpk1 hr1 hr (hid1.trans hid.symm)
    rw [hres, this]

/-- Witness for C2: a table with users 1 and 2; id 3 is unknown, id 2 is found. -/
theorem Get_unknown_and_present_witness :
    Open healthy { user := none } = ({ user := some [] }, some openedRepo, none) ∧
    openedRepo.Get healthy { user := some [⟨1, "al", "al@example.org", "pw"⟩,
        ⟨2, "bo", "bo@example.org", "pw2"⟩] } 3 = .ret (User.zero, some .ErrNotFound) ∧
    openedRepo.Get healthy { user := some [⟨1, "al", "al@example.org", "pw"⟩,
        ⟨2, "bo", "bo@example.org", "pw2"⟩] } 2
      = .ret ({ UserID := 2, Alias := "bo", Email := "bo@example.org", Password := "pw2" }, none) :=
  ⟨by decide,
   (Get_unknown_and_present healthy { user := none } { user := some [] } openedRepo (by decide)
      [⟨1, "al", "al@example.org", "pw"⟩, ⟨2, "bo", "bo@example.org", "pw2"⟩]
      (by decide) 3).1 (by decide),
   (Get_unknown_and_present healthy { user := none } { user := some [] } openedRepo (by decide)
      [⟨1, "al", "al@example.org", "pw"⟩, ⟨2, "bo", "bo@example.org", "pw2"⟩]
      (by decide) 2).2 ⟨2, "bo", "bo@example.org", "pw2"⟩ (by decide) rfl⟩

theorem updatedRows_ids (rows : List Row) (u : User) :
    (updatedRows rows u).map Row.user_id = rows.map Row.user_id := by
  induction rows with
  | nil => rfl
  | cons r t ih =>
    simp only [updatedRows, List.map_cons, List.cons.injEq] at ih ⊢
    refine ⟨?_, ih⟩
    split <;> simp [Row.updated]

theorem updatedRows_others (rows : List Row) (u : User) :
    (updatedRows rows u).filter (fun r => r.user_id ≠ u.UserID)
      = rows.filter (fun r => r.user_id ≠ u.UserID) := by
  induction rows with
  | nil => rfl
  | cons r t ih =>
    simp only [updatedRows, List.map_cons] at ih ⊢
    by_cases h : r.user_id = u.UserID
    · simpa [h, Row.updated, List.filter_cons] using ih
    · simpa [h, List.filter_cons] using ih

theorem updatedRows_absent (rows : List Row) (u : User)
    (h : ∀ r ∈ rows, r.user_id ≠ u.UserID) : updatedRows rows u = rows := by
  induction rows with
  | nil => rfl
  | cons r t ih =>
    simp only [List.mem_cons, forall_eq_or_imp] at h
    simp only [updatedRows, List.map_cons] at ih ⊢
    rw [ih h.2, if_neg h.1]

theorem updatedRows_mem (rows : List Row) (u : User) (r1 : Row)
    (hmem : r1 ∈ updatedRows rows u) (hid : r1.user_id = u.UserID) : r1.toUser = u := by
  simp only [updatedRows, List.mem_map] at hmem
  obtain ⟨r, _, hr⟩ := hmem
  by_cases h : r.user_id = u.UserID
  · rw [if_pos h] at hr
    subst hr
    simp [Row.toUser, Row.updated, h]
  · rw [if_neg h] at hr
    subst hr
    exact absurd hid h

/-- C3: with a repository returned by a successful `Open`, on every store state
holding a row with `user_id = u.UserID` and while the store answers, `Update(u)`
returns a nil error, a following `Get(u.UserID)` returns `u` (same id, alias,
email and password) with a nil error, the `user_id` column is the same before
and after, and the rows with another id are the same before and after. -/
theorem Update_existing (env0 : Env) (db0 db1 : DB) (repo : dbUser)
    (hopen : Open env0 db0 = (db1, some repo, none)) (rows : List Row) (u : User)
    (hmem : ∃ r ∈ rows, r.user_id = u.UserID) :
    ∃ rows1, repo.Update healthy { user := some rows } u
        = .ret ({ user := some rows1 }, none) ∧
      repo.Get healthy { user := some rows1 } u.UserID = .ret (u, none) ∧
      rows1.map Row.user_id = rows.map Row.user_id ∧
      rows1.filter (fun r => r.user_id ≠ u.UserID)
        = rows.filter (fun r => r.user_id ≠ u.UserID) := by
  refine ⟨updatedRows rows u, Update_eq healthy rfl rfl repo rows u, ?_,
    updatedRows_ids rows u, updatedRows_others rows u⟩
  rw [Open_repo env0 db0 db1 repo hopen, Get_eq healthy rfl rfl rfl]
  obtain ⟨r, hr, hid⟩ := hmem
  have hin : u.UserID ∈ (updatedRows rows u).map Row.user_id := by
    rw [updatedRows_ids]
    exact List.mem_map.mpr ⟨r, hr, hid⟩
  obtain ⟨r0, hr0, hid0⟩ := List.mem_map.mp hin
  obtain ⟨r1, hr1, hk, hres⟩ := lookup_some (updatedRows rows u) .user_id (.int u.UserID)
    ⟨r0, hr0, by simp [Row.get, hid0]⟩
  rw [hres, updatedRows_mem rows u r1 hr1 (by simpa [Row.get] using hk)]

/-- Witness for C3: user 2 of a two-row table is updated. -/
theorem Update_existing_witness :
    ∃ rows1,
      openedRepo.Update healthy { user := some [⟨1, "al", "al@example.org", "pw"⟩,
          ⟨2, "bo", "bo@example.org", "pw2"⟩] } ⟨2, "bob", "bob@example.org", "pw3"⟩
        = .ret ({ user := some rows1 }, none) ∧
      openedRepo.Get healthy { user := some rows1 } 2
        = .ret (⟨2, "bob", "bob@example.org", "pw3"⟩, none) ∧
      rows1.map Row.user_id = [1, 2] ∧
      rows1.filter (fun r => r.user_id ≠ 2) = [⟨1, "al", "al@example.org", "pw"⟩] :=
  Update_existing healthy { user := none } { user := some [] } openedRepo (by decide)
    [⟨1, "al", "al@example.org", "pw"⟩, ⟨2, "bo", "bo@example.org", "pw2"⟩]
    ⟨2, "bob", "bob@example.org", "pw3"⟩ ⟨⟨2, "bo", "bo@example.org", "pw2"⟩, by decide, rfl⟩

/-- C4: on every store state in which no row has `user_id = u.UserID` and while
the store answers, `Update(u)` returns a nil error (neither `ErrNotFound` nor any
other error) and leaves the table as it was. -/
theorem Update_absent (repo : dbUser) (rows : List Row) (u : User)
    (habs : ∀ r ∈ rows, r.user_id ≠ u.UserID) :
    repo.Update healthy { user := some rows } u = .ret ({ user := some rows }, none) := by
  have h := Update_eq healthy rfl rfl repo rows u
  rw [h]
  have := updatedRows_absent rows u habs
  simp only [updatedRows] at this
  rw [this]

/-- Witness for C4: user 3 is not in a table holding users 1 and 2. -/
theorem Update_absent_witness :
    openedRepo.Update healthy { user := some [⟨1, "al", "al@example.org", "pw"⟩,
        ⟨2, "bo", "bo@example.org", "pw2"⟩] } ⟨3, "cy", "cy@example.org", "pw3"⟩
      = .ret ({ user := some [⟨1, "al", "al@example.org", "pw"⟩,
          ⟨2, "bo", "bo@example.org", "pw2"⟩] }, none) :=
  Update_absent openedRepo
    [⟨1, "al", "al@example.org", "pw"⟩, ⟨2, "bo", "bo@example.org", "pw2"⟩]
    ⟨3, "cy", "cy@example.org", "pw3"⟩ (by decide)

/-- C5: with a repository returned by a successful `Open`, on every store state
and while the store answers, `GetByEmail(e)` returns one stored row whose email
is `e`, with a nil error, when some row has that email, and returns the zero
`User` and `ErrNotFound` when none has. -/
theorem GetByEmail_found_or_not (env0 : Env) (db0 db1 : DB) (repo : dbUser)
    (hopen : Open env0 db0 = (db1, some repo, none)) (rows : List Row) (e : String) :
    ((∃ r ∈ rows, r.email = e) →
      ∃ r ∈ rows, r.email = e ∧ r.toUser.Email = e ∧
        repo.GetByEmail healthy { user := some rows } e = .ret (r.toUser, none)) ∧
    ((∀ r ∈ rows, r.email ≠ e) →
      repo.GetByEmail healthy { user := some rows } e
        = .ret (User.zero, some .ErrNotFound)) := by
  rw [Open_repo env0 db0 db1 repo hopen, GetByEmail_eq healthy rfl rfl rfl]
  constructor
  · rintro ⟨r, hr, he⟩
    obtain ⟨r1, hr1, hk, hres⟩ := lookup_some rows .email (.text e) ⟨r, hr, by simp [Row.get, he]⟩
    have he1 : r1.email = e := by simpa [Row.get] using hk
    exact ⟨r1, hr1, he1, he1, hres⟩
  · intro h
    exact lookup_none rows .email (.text e) (by simpa [Row.get] using h)

/-- Witness for C5: two users share an email; the lookup returns one of them, and
an email nobody has is not found. -/
theorem GetByEmail_found_or_not_witness :
    (∃ r ∈ [(⟨1, "al", "x@example.org", "pw"⟩ : Row), ⟨2, "bo", "x@example.org", "pw2"⟩],
      r.email = "x@example.org" ∧ r.toUser.Email = "x@example.org" ∧
      openedRepo.GetByEmail healthy { user := some [⟨1, "al", "x@example.org", "pw"⟩,
        ⟨2, "bo", "x@example.org", "pw2"⟩] } "x@example.org" = .ret (r.toUser, none)) ∧
    openedRepo.GetByEmail healthy { user := some [⟨1, "al", "x@example.org", "pw"⟩,
        ⟨2, "bo", "x@example.org", "pw2"⟩] } "y@example.org"
      = .ret (User.zero, some .ErrNotFound) :=
  ⟨(GetByEmail_found_or_not healthy { user := none } { user := some [] } openedRepo (by decide)
      [⟨1, "al", "x@example.org", "pw"⟩, ⟨2, "bo", "x@example.org", "pw2"⟩] "x@example.org").1
      ⟨⟨1, "al", "x@example.org", "pw"⟩, by decide, rfl⟩,
   (GetByEmail_found_or_not healthy { user := none } { user := some [] } openedRepo (by decide)
      [⟨1, "al", "x@example.org", "pw"⟩, ⟨2, "bo", "x@example.org", "pw2"⟩] "y@example.org").2
      (by decide)⟩

/-- C6: for every request without a `Content-Type` header whose body holds a JSON
object with the members `userID` (an integer in the `int64` range), `alias` and
`email` (strings), in any order, `DecodeJSONUser` returns a nil error and sets
`UserID`, `Alias` and `Email` to the values of the body; the form field plays no
part and the password is kept. -/
theorem DecodeJSONUser_body_without_content_type (codec : JSONCodec)
    (ContentType_JSON : String) (r : Request) (user : User)
    (members : List (String × Json)) (n : Int) (a e : String)
    (hct : r.Header "Content-Type" = [])
    (hbody : codec.readValue r.Body = .ok (.obj members))
    (hshape : members.Perm [("userID", .num (.int n)), ("alias", .str a), ("email", .str e)])
    (hlo : -(2 : Int) ^ 63 ≤ n) (hhi : n < (2 : Int) ^ 63) :
    DecodeJSONUser codec ContentType_JSON r user
      = ({ UserID := n, Alias := a, Email := e, Password := user.Password }, none) := by
  simp only [DecodeJSONUser, hct, List.length_nil, gt_iff_lt, lt_self_iff_false, false_and,
    if_false, Decoder.Decode, NewDecoder, hbody]
  exact unmarshal_shape codec members n a e user hshape hlo hhi

/-- Witness for C6: a body read by the JSON reader, with the members in another
order than the struct declares them. -/
theorem DecodeJSONUser_body_without_content_type_witness :
    DecodeJSONUser stdCodec "application/x-www-form-urlencoded"
        { Header := fun _ => [], PostFormValue := fun _ => "ignored",
          Body := "\x7b\"alias\": \"al\", \"userID\": 7, \"email\": \"al@example.org\"\x7d" }
        { UserID := 0, Alias := "", Email := "", Password := "secret" }
      = ({ UserID := 7, Alias := "al", Email := "al@example.org", Password := "secret" }, none) :=
  DecodeJSONUser_body_without_content_type stdCodec "application/x-www-form-urlencoded"
    { Header := fun _ => [], PostFormValue := fun _ => "ignored",
      Body := "\x7b\"alias\": \"al\", \"userID\": 7, \"email\": \"al@example.org\"\x7d" }
    { UserID := 0, Alias := "", Email := "", Password := "secret" }
    [("alias", .str "al"), ("userID", .num (.int 7)), ("email", .str "al@example.org")]
    7 "al" "al@example.org" rfl rfl (List.Perm.swap _ _ _) (by decide) (by decide)

/-- C7 fails as stated: `Open` on an empty store returns a nil error and a
repository whose `addUser` and `listUser` handles are nil, so a nil error does
not mean four prepared statements. -/
theorem Open_nil_error_two_handles_nil :
    Open healthy { user := none }
      = ({ user := some [] },
          some { db := (), getUser := some { sql := getSQL },
                 getByEmail := some { sql := getByEmailSQL },
                 addUser := none, listUser := none }, none) ∧
    ¬ (∀ (env : Env) (db db1 : DB) (repo : dbUser), Open env db = (db1, some repo, none) →
        repo.getUser ≠ none ∧ repo.getByEmail ≠ none ∧ repo.addUser ≠ none ∧
          repo.listUser ≠ none) := by
  refine ⟨by decide, fun h => ?_⟩
  have := h healthy { user := none } { user := some [] } openedRepo (by decide)
  exact this.2.2.1 rfl

/-- C7 as amended: `Open` ensures the table exists and prepares two statements.
Whenever it returns a nil error, the store holds the table (with the rows it had,
none if it was absent) and the returned repository is not nil: its handles
`getUser` and `getByEmail` are the prepared lookups by id and by email, and its
handles `addUser` and `listUser` are nil.  It does return a nil error whenever
the table creation and both preparations succeed.  Whenever the table creation
or one of the two preparations fails, `Open` returns that error and a nil
`WebUser`, the store being untouched in the first case and holding the table in
the other two; and it never returns both an error and a repository. -/
theorem Open_prepares_two_statements (env : Env) (db : DB) :
    (∀ db1 i, Open env db = (db1, i, none) →
      db1 = { user := some (db.user.getD []) } ∧
      i = some { db := (), getUser := some { sql := getSQL },
                 getByEmail := some { sql := getByEmailSQL },
                 addUser := none, listUser := none }) ∧
    ((db.Exec env .createTable []).2 = none →
      ((db.Exec env .createTable []).1.Prepare env getSQL).2 = none →
      ((db.Exec env .createTable []).1.Prepare env getByEmailSQL).2 = none →
      Open env db =
        ({ user := some (db.user.getD []) },
          some { db := (), getUser := some { sql := getSQL },
                 getByEmail := some { sql := getByEmailSQL },
                 addUser := none, listUser := none }, none)) ∧
    (∀ e, (db.Exec env .createTable []).2 = some e →
      Open env db = (db, none, some e)) ∧
    (∀ e, (db.Exec env .createTable []).2 = none →
      ((db.Exec env .createTable []).1.Prepare env getSQL).2 = some e →
      Open env db = ({ user := some (db.user.getD []) }, none, some e)) ∧
    (∀ e, (db.Exec env .createTable []).2 = none →
      ((db.Exec env .createTable []).1.Prepare env getSQL).2 = none →
      ((db.Exec env .createTable []).1.Prepare env getByEmailSQL).2 = some e →
      Open env db = ({ user := some (db.user.getD []) }, none, some e)) ∧
    (∀ e, (Open env db).2.2 = some e → (Open env db).2.1 = none) := by
  rw [Open_eq]
  cases h1 : env (.dbExec .createTable) with
  | some msg => simp [DB.Exec, h1]
  | none =>
    cases h2 : env (.prepare getSQL) with
    | some msg => simp [DB.Exec, h1, run_createTable, DB.Prepare, h2]
    | none =>
      cases h3 : env (.prepare getByEmailSQL) with
      | some msg =>
        simp [DB.Exec, h1, run_createTable, DB.Prepare, h2, h3, check_getSQL]
      | none =>
        simp [DB.Exec, h1, run_createTable, DB.Prepare, h2, h3, check_getSQL,
          check_getByEmailSQL, openedRepo]

/-- Witness for C7 as amended: on a store that already holds a row, `Open`
succeeds, keeps the row and returns the two prepared handles; on a store whose
second preparation fails, `Open` returns that error and a nil `WebUser`. -/
theorem Open_prepares_two_statements_witness :
    Open healthy { user := some [⟨1, "al", "al@example.org", "pw"⟩] }
      = ({ user := some [⟨1, "al", "al@example.org", "pw"⟩] },
          some { db := (), getUser := some { sql := getSQL },
                 getByEmail := some { sql := getByEmailSQL },
                 addUser := none, listUser := none }, none) ∧
    Open (failing (.prepare getByEmailSQL) "driver: bad connection") { user := none }
      = ({ user := some [] }, none, some (.store "driver: bad connection")) :=
  ⟨(Open_prepares_two_statements healthy
      { user := some [⟨1, "al", "al@example.org", "pw"⟩] }).2.1
      (by decide) (by decide) (by decide),
   (Open_prepares_two_statements (failing (.prepare getByEmailSQL) "driver: bad connection")
      { user := none }).2.2.2.2.1 (.store "driver: bad connection") (by decide) (by decide)
      (by decide)⟩

/-- C8, evaluated on the code: when `Query` fails with a store error, `Get` and
`GetByEmail` do not return it; they call `Next` on the nil result set and panic.
When fetching the row fails, they return `ErrNotFound` for a row that exists. -/
theorem Get_does_not_return_the_store_error :
    openedRepo.Get (failing (.query getSQL) "driver: bad connection")
        { user := some [⟨1, "al", "al@example.org", "pw"⟩] } 1 = .panic nilDereference ∧
    openedRepo.GetByEmail (failing (.query getByEmailSQL) "driver: bad connection")
        { user := some [⟨1, "al", "al@example.org", "pw"⟩] } "al@example.org"
      = .panic nilDereference ∧
    openedRepo.Get (failing .next "driver: bad connection")
        { user := some [⟨1, "al", "al@example.org", "pw"⟩] } 1
      = .ret (User.zero, some .ErrNotFound) := by
  refine ⟨by decide, by decide, by decide⟩

theorem Get_panics_of_Query_error (env : Env) (db : DB) (id : Int) (msg : String)
    (hq : env (.query getSQL) = some msg) :
    openedRepo.Get env db id = .panic nilDereference := by
  simp [dbUser.Get, openedRepo, Stmt.Query, hq]

theorem GetByEmail_panics_of_Query_error (env : Env) (db : DB) (email : String) (msg : String)
    (hq : env (.query getByEmailSQL) = some msg) :
    openedRepo.GetByEmail env db email = .panic nilDereference := by
  simp [dbUser.GetByEmail, openedRepo, Stmt.Query, hq]

theorem Update_of_Prepare_error (env : Env) (repo : dbUser) (db : DB) (u : User)
    (msg : String) (hp : env (.prepare updateSQL) = some msg) :
    repo.Update env db u = .ret (db, some (.store msg)) := by
  simp [dbUser.Update, DB.Prepare, hp]

theorem Update_of_Exec_error (env : Env) (repo : dbUser) (rows : List Row) (u : User)
    (msg : String) (hp : env (.prepare updateSQL) = none)
    (he : env (.stmtExec updateSQL) = some msg) :
    repo.Update env { user := some rows } u
      = .ret ({ user := some rows }, some (.store msg)) := by
  simp [dbUser.Update, DB.Prepare, hp, check_updateSQL, Stmt.Exec, he]

theorem Add_of_Prepare_error (env : Env) (repo : dbUser) (db : DB) (u : User)
    (msg : String) (hp : env (.prepare addSQL) = some msg) :
    repo.Add env db u = .ret (db, some (.store msg)) := by
  simp [dbUser.Add, DB.Prepare, hp]

theorem DecodeJSONUser_form (codec : JSONCodec) (ct : String) (r : Request) (user : User)
    (rest : List String) (h : r.Header "Content-Type" = ct :: rest) :
    DecodeJSONUser codec ct r user
      = (NewDecoder (r.PostFormValue "data")).Decode codec user := by
  simp [DecodeJSONUser, h]

theorem DecodeJSONUser_body (codec : JSONCodec) (ct : String) (r : Request) (user : User)
    (h : ¬ ∃ rest, r.Header "Content-Type" = ct :: rest) :
    DecodeJSONUser codec ct r user = (NewDecoder r.Body).Decode codec user := by
  simp only [DecodeJSONUser]
  rw [if_neg]
  rintro ⟨_, h0⟩
  cases hh : r.Header "Content-Type" with
  | nil => simp [hh] at h0
  | cons c0 rest =>
    simp only [hh, List.getElem?_cons_zero, Option.some.injEq] at h0
    exact h ⟨rest, by rw [hh, h0]⟩

theorem Decode_of_readValue_error (codec : JSONCodec) (src : String) (user : User)
    (msg : String) (h : codec.readValue src = .error msg) :
    (NewDecoder src).Decode codec user = (user, some (.decode msg)) := by
  simp [Decoder.Decode, NewDecoder, h]

/-- C9 fails as stated: a body (or a form field) that is not a JSON text, a JSON
object followed by a stray bracket, is decoded with a nil error, because the
decoder stops reading at the end of the first value. -/
theorem DecodeJSONUser_accepts_text_after_value :
    scanner.valid "\x7b\"userID\": 7\x7d ]" = false ∧
    DecodeJSONUser stdCodec "application/json"
        { Header := fun _ => [], PostFormValue := fun _ => "",
          Body := "\x7b\"userID\": 7\x7d ]" } User.zero
      = ({ UserID := 7, Alias := "", Email := "", Password := "" }, none) ∧
    DecodeJSONUser stdCodec "application/json"
        { Header := fun k => if k = "Content-Type" then ["application/json"] else [],
          PostFormValue := fun k => if k = "data" then "\x7b\"userID\": 7\x7d ]" else "",
          Body := "" } User.zero
      = ({ UserID := 7, Alias := "", Email := "", Password := "" }, none) := by
  refine ⟨by decide, by decide, by decide⟩

/-- C9 as amended: the JSON source depends on the `Content-Type` header alone.
When the header has a first value equal to `api.ContentType_JSON` the result is
that of decoding the form field `data`, otherwise that of decoding the body; and
whenever the selected source does not start with a well-formed JSON value, the
call returns that decode error and leaves the target as it was. -/
theorem DecodeJSONUser_source (codec : JSONCodec) (ContentType_JSON : String)
    (r : Request) (user : User) :
    ((∃ rest, r.Header "Content-Type" = ContentType_JSON :: rest) →
      DecodeJSONUser codec ContentType_JSON r user
          = (NewDecoder (r.PostFormValue "data")).Decode codec user ∧
        ∀ msg, codec.readValue (r.PostFormValue "data") = .error msg →
          DecodeJSONUser codec ContentType_JSON r user = (user, some (.decode msg))) ∧
    ((¬ ∃ rest, r.Header "Content-Type" = ContentType_JSON :: rest) →
      DecodeJSONUser codec ContentType_JSON r user = (NewDecoder r.Body).Decode codec user ∧
        ∀ msg, codec.readValue r.Body = .error msg →
          DecodeJSONUser codec ContentType_JSON r user = (user, some (.decode msg))) := by
  constructor
  · rintro ⟨rest, h⟩
    have := DecodeJSONUser_form codec ContentType_JSON r user rest h
    exact ⟨this, fun msg hm => by rw [this, Decode_of_readValue_error codec _ user msg hm]⟩
  · intro h
    have := DecodeJSONUser_body codec ContentType_JSON r user h
    exact ⟨this, fun msg hm => by rw [this, Decode_of_readValue_error codec _ user msg hm]⟩

/-- Witness for C9 as amended: a form-encoded request whose field `data` is cut
short, and a request with another content type whose body is cut short. -/
theorem DecodeJSONUser_source_witness :
    DecodeJSONUser stdCodec "application/json"
        { Header := fun k => if k = "Content-Type" then ["application/json"] else [],
          PostFormValue := fun k => if k = "data" then "\x7b\"userID\": 7" else "",
          Body := "\x7b\"userID\": 8\x7d" } User.zero
      = (User.zero, some (.decode "invalid character or unexpected end of JSON input")) ∧
    DecodeJSONUser stdCodec "application/json"
        { Header := fun k => if k = "Content-Type" then ["text/plain"] else [],
          PostFormValue := fun k => if k = "data" then "\x7b\"userID\": 7\x7d" else "",
          Body := "\x7b\"userID\": " } User.zero
      = (User.zero, some (.decode "invalid character or unexpected end of JSON input")) :=
  ⟨((DecodeJSONUser_source stdCodec "application/json"
        { Header := fun k => if k = "Content-Type" then ["application/json"] else [],
          PostFormValue := fun k => if k = "data" then "\x7b\"userID\": 7" else "",
          Body := "\x7b\"userID\": 8\x7d" } User.zero).1 ⟨[], by decide⟩).2 _ rfl,
   ((DecodeJSONUser_source stdCodec "application/json"
        { Header := fun k => if k = "Content-Type" then ["text/plain"] else [],
          PostFormValue := fun k => if k = "data" then "\x7b\"userID\": 7\x7d" else "",
          Body := "\x7b\"userID\": " } User.zero).2
        (by rintro ⟨rest, h⟩; simp at h)).2 _ rfl⟩

/-- C10: `DecodeJSONUser` never writes the password: for every request, every
source text and every target, the `Password` after the call is the `Password`
before it, whatever keys the JSON input carries. -/
theorem DecodeJSONUser_keeps_Password (codec : JSONCodec) (ContentType_JSON : String)
    (r : Request) (user : User) :
    (DecodeJSONUser codec ContentType_JSON r user).1.Password = user.Password := by
  exact Decode_Password codec _ user

end webuser
